import Mathlib

/-!
Verification of the webext-bridge message routing core, a shallow embedding of
`src/internal.ts` and `src/utils.ts`: the error codec, reply/transaction
dispatch, hop-based loop prevention, the namespace guard, the handshake/retry
forwarder, and endpoint parsing.
-/

namespace WebextBridge

/-! ### Error codec -/

/-- a JavaScript error object, modelled as a distinguished `name` and
`message` together with the remaining own enumerable (string-valued)
properties. -/
structure JsError where
  name : String
  message : String
  fields : List (String × String)
deriving DecidableEq

/-- a plain structured record obtained from serializing an error:
`name`, `message`, and the remaining own enumerable fields. -/
structure SerializedError where
  name : String
  message : String
  extra : List (String × String)
deriving DecidableEq

/-- Modelled from the spec: the external `serialize-error` package (imported by
`src/internal.ts` but not part of src/) converts a thrown error into a plain
structured record preserving `name`, `message` and all own enumerable
fields. -/
def serializeError (e : JsError) : SerializedError :=
  ⟨e.name, e.message, e.fields⟩

/-- upsert of a string-valued property on an association list, as JavaScript
property assignment behaves on a plain object. -/
def setField : List (String × String) → String → String → List (String × String)
  | [], k, v => [(k, v)]
  | (k0, v0) :: rest, k, v =>
      if k0 = k then (k, v) :: rest else (k0, v0) :: setField rest k v

/-- property assignment `e[k] = v` on an error object
(`hydratedErr[prop] = dehydratedErr[prop]`, internal.ts line 54). -/
def setProp (e : JsError) (k v : String) : JsError :=
  if k = "name" then { e with name := v }
  else if k = "message" then { e with message := v }
  else { e with fields := setField e.fields k v }

/-- own enumerable properties of the serialized record, in the order
enumerated by `for (const prop in dehydratedErr)` (internal.ts line 53). -/
def recordProps (r : SerializedError) : List (String × String) :=
  ("name", r.name) :: ("message", r.message) :: r.extra

/-- rehydration of a serialized error (internal.ts lines 48-54): resolve a
constructor by the record's `name` in the global registry (`self[name]`),
falling back to the generic `Error` constructor; construct with `message`;
then copy every property of the record onto the new instance.
`ctorExists n` models whether `self[n]` is a function. -/
def deserializeError (ctorExists : String → Bool) (r : SerializedError) : JsError :=
  let base : JsError :=
    { name := if ctorExists r.name then r.name else ("Error")
      message := r.message
      fields := [] }
  (recordProps r).foldl (fun e kv => setProp e kv.1 kv.2) base

theorem setField_append (acc : List (String × String)) (k v : String)
    (h : k ∉ acc.map Prod.fst) : setField acc k v = acc ++ [(k, v)] := by
  induction acc with
  | nil => rfl
  | cons p rest ih =>
      obtain ⟨k0, v0⟩ := p
      have hne : k0 ≠ k := by
        intro hk
        exact h (by simp [hk])
      have hrest : k ∉ rest.map Prod.fst := by
        intro hk
        exact h (by simp [hk])
      simp [setField, hne, ih hrest]

theorem foldl_setProp (n msg : String) (l acc : List (String × String))
    (hname : ∀ p ∈ l, p.1 ≠ "name")
    (hmsg : ∀ p ∈ l, p.1 ≠ "message")
    (hdisj : ∀ p ∈ l, p.1 ∉ acc.map Prod.fst)
    (hnd : (l.map Prod.fst).Nodup) :
    l.foldl (fun e kv => setProp e kv.1 kv.2) ⟨n, msg, acc⟩ = ⟨n, msg, acc ++ l⟩ := by
  induction l generalizing acc with
  | nil => simp
  | cons p rest ih =>
      obtain ⟨k, v⟩ := p
      have h1 : k ≠ "name" := hname (k, v) (by simp)
      have h2 : k ≠ "message" := hmsg (k, v) (by simp)
      have h3 : k ∉ acc.map Prod.fst := hdisj (k, v) (by simp)
      have hsp : setProp ⟨n, msg, acc⟩ k v = ⟨n, msg, acc ++ [(k, v)]⟩ := by
        simp [setProp, h1, h2, setField_append acc k v h3]
      rw [List.map_cons] at hnd
      have hknotin : ∀ p ∈ rest, p.1 ≠ k := by
        intro p hp hk
        exact (List.nodup_cons.mp hnd).1 (List.mem_map.mpr ⟨p, hp, hk⟩)
      have hname2 : ∀ p ∈ rest, p.1 ≠ "name" :=
        fun p hp => hname p (List.mem_cons_of_mem _ hp)
      have hmsg2 : ∀ p ∈ rest, p.1 ≠ "message" :=
        fun p hp => hmsg p (List.mem_cons_of_mem _ hp)
      have hdisj2 : ∀ p ∈ rest, p.1 ∉ (acc ++ [(k, v)]).map Prod.fst := by
        intro p hp
        have hne := hknotin p hp
        have hacc := hdisj p (List.mem_cons_of_mem _ hp)
        simp [List.map_append, hne, hacc]
      rw [List.foldl_cons, hsp,
        ih (acc ++ [(k, v)]) hname2 hmsg2 hdisj2 (List.nodup_cons.mp hnd).2]
      simp

/-- C4: deserializing the serialized form of an error yields an object whose
`name`, `message` and own enumerable fields equal those of the original by
value, for any constructor registry available at the receiving end. -/
theorem errorCodec_roundtrip (ctorExists : String → Bool) (e : JsError)
    (hname : "name" ∉ e.fields.map Prod.fst)
    (hmsg : "message" ∉ e.fields.map Prod.fst)
    (hnd : (e.fields.map Prod.fst).Nodup) :
    deserializeError ctorExists (serializeError e) = e := by
  unfold deserializeError serializeError recordProps
  simp only [List.foldl_cons]
  have hstep1 : setProp
      { name := if ctorExists e.name then e.name else ("Error")
        message := e.message
        fields := [] } "name" e.name =
      ⟨e.name, e.message, []⟩ := by
    simp [setProp]
  have hstep2 : setProp (⟨e.name, e.message, []⟩ : JsError) "message" e.message =
      ⟨e.name, e.message, []⟩ := by
    simp [setProp]
  rw [hstep1, hstep2,
    foldl_setProp e.name e.message e.fields []
      (fun p hp hcon => hname (List.mem_map.mpr ⟨p, hp, hcon⟩))
      (fun p hp hcon => hmsg (List.mem_map.mpr ⟨p, hp, hcon⟩))
      (by simp) hnd]
  simp

/-- a concrete error used to witness the codec round-trip. -/
def egErr : JsError := ⟨"TypeError", "boom", [("code", "E1"), ("detail", "d")]⟩

theorem errorCodec_roundtrip_witness :
    ("name" ∉ egErr.fields.map Prod.fst
      ∧ "message" ∉ egErr.fields.map Prod.fst
      ∧ (egErr.fields.map Prod.fst).Nodup)
    ∧ deserializeError (fun _ => false) (serializeError egErr) = egErr :=
  ⟨by decide,
    errorCodec_roundtrip (fun _ => false) egErr (by decide) (by decide) (by decide)⟩

/-! ### Envelope data model and routing state -/

/-- a structurally cloneable payload value; routing never inspects payloads,
so a small JSON fragment suffices for the embedding. -/
inductive JValue
  | null
  | bool (b : Bool)
  | num (n : Int)
  | str (s : String)
deriving DecidableEq

/-- a logical address: context kind plus optional instance (`types.ts`
`Endpoint`; `tabId: null` and `tabId` absent are both `none`). -/
structure Endpoint where
  context : Option String
  tabId : Option Int
deriving DecidableEq

inductive MessageType
  | message
  | reply
deriving DecidableEq

/-- the envelope routed between contexts (`types.ts` `IInternalMessage`). -/
structure InternalMessage where
  transactionId : String
  messageID : String
  messageType : MessageType
  origin : Endpoint
  destination : Option Endpoint
  data : Option JValue
  err : Option SerializedError
  hops : List String
  timestamp : Int
deriving DecidableEq

/-- the value handed to a registered handler (`types.ts` `IBridgeMessage`):
`{sender: message.origin, id: messageID, data: message.data, timestamp}`. -/
structure BridgeMessage where
  sender : Endpoint
  id : String
  data : Option JValue
  timestamp : Int

/-- outcome of invoking a handler: a returned value (possibly `undefined`,
i.e. `none`) or a thrown error. -/
inductive HandlerResult
  | ok (v : Option JValue)
  | threw (e : JsError)

/-- a registered `onMessage` handler. -/
def OnMessageCallback : Type := BridgeMessage → HandlerResult

/-- the constant local context kind (internal.ts line 6). -/
def context : String := "window"

/-- mutable module state of internal.ts: the Transaction Table
(`openTransactions`, modelled by its key set since the continuation pair is
observed through effects), the Listener Table (`onMessageListeners`), and the
`namespace` variable (`none` models the `undefined` of an unset `let`). -/
structure State where
  openTransactions : List String
  onMessageListeners : List (String × OnMessageCallback)
  nsp : Option String

/-- ambient process environment: the random `runtimeId` produced by `uuid()`
(line 8) and the global constructor registry consulted by `self[name]`
(line 49). -/
structure Env where
  rid : String
  errCtorExists : String → Bool

/-- a value thrown synchronously out of the routing code: either a genuine
error object, or an arbitrary JavaScript value (as in `throw reply`, where
the thrown value can be `undefined`, modelled by `dataVal none`). -/
inductive Thrown
  | errVal (e : JsError)
  | dataVal (v : Option JValue)
deriving DecidableEq

/-- observable actions performed while routing one envelope: invoking a
pending transaction's continuation, invoking a registered handler, or handing
an envelope to the window forwarder. -/
inductive Effect
  | resolveTx (tid : String) (v : Option JValue)
  | rejectTx (tid : String) (e : JsError)
  | handlerInvoked (mid : String)
  | forwardToWindow (m : InternalMessage)
deriving DecidableEq

/-- result of running the router on one envelope: the new module state, the
effects performed in order, the value thrown locally (if any), and the final
value of the (in JavaScript, mutated in place) envelope object. -/
structure RouteResult where
  state : State
  effects : List Effect
  thrown : Option Thrown
  msg : InternalMessage

/-- the error thrown by `ensureNamespaceSet` (internal.ts lines 152-161). -/
def namespaceError : JsError :=
  ⟨"Error",
    "webext-bridge uses window.postMessage to talk with other \"window\"(s), for message routing and stuff,which is global/conflicting operation in case there are other scripts using webext-bridge. Call Bridge#setNamespace(nsps) to isolate your app. Example: setNamespace(\x27com.facebook.react-devtools\x27). Make sure to use same namespace across all your scripts whereever window.postMessage is likely to be used`",
    []⟩

/-- guard of internal.ts lines 152-161: `typeof namespace !== \x27string\x27
|| namespace.length === 0` throws; returns the thrown error, if any. -/
def ensureNamespaceSet : Option String → Option JsError
  | some n => if n.length = 0 then some namespaceError else none
  | none => some namespaceError

/-- hand-off of one envelope to the shared-relay forwarder
(`routeMessageThroughWindow`, internal.ts lines 128-150), at the level of the
dispatcher: check the namespace, then (asynchronously) probe and deliver;
delivery is recorded as a `forwardToWindow` effect.  The timing of the
probe/retry protocol itself is modelled separately (`FwdState` below). -/
def routeMessageThroughWindowF (s : State) (m : InternalMessage) : RouteResult :=
  match ensureNamespaceSet s.nsp with
  | some e => ⟨s, [], some (.errVal e), m⟩
  | none => ⟨s, [.forwardToWindow m], none, m⟩

/-- JavaScript truthiness of `destination.context` (internal.ts line 36):
a missing context and the empty string are both falsy. -/
def truthyCtx : Option String → Bool
  | some c => c.length != 0
  | none => false

/-- the `reply` envelope built by the `finally` block of `handleNewMessage`
(internal.ts lines 92-99): spread of the (possibly `err`-mutated) inbound
message with `messageType: \x27reply\x27`, `data: reply`,
`origin: \x7bcontext, tabId: null\x7d`, `destination: message.origin`, and a
fresh empty `hops` array. -/
def mkReply (m : InternalMessage) (reply : Option JValue) : InternalMessage :=
  { m with
    messageType := .reply
    data := reply
    origin := ⟨some context, none⟩
    destination := some m.origin
    hops := [] }

/-- the message of the error thrown when no handler is registered
(internal.ts line 83). -/
def noHandlerMessage (mid : String) : String :=
  "[webext-bridge] No handler registered in \x27" ++ context
    ++ "\x27 to accept messages with id \x27" ++ mid ++ "\x27"

/-- the `Error` thrown at internal.ts line 83 when no handler is registered. -/
def noHandlerError (mid : String) : JsError :=
  ⟨"Error", noHandlerMessage mid, []⟩

/-- the `handleReply` closure (internal.ts lines 43-63): look up the
transaction; if present, reject with the rehydrated error when `err` is set,
else resolve with `data`, and delete the entry; if absent, do nothing. -/
def handleReplyF (env : Env) (s : State) (m : InternalMessage) : RouteResult :=
  if m.transactionId ∈ s.openTransactions then
    match m.err with
    | some r =>
        ⟨⟨s.openTransactions.erase m.transactionId, s.onMessageListeners, s.nsp⟩,
          [.rejectTx m.transactionId (deserializeError env.errCtorExists r)], none, m⟩
    | none =>
        ⟨⟨s.openTransactions.erase m.transactionId, s.onMessageListeners, s.nsp⟩,
          [.resolveTx m.transactionId m.data], none, m⟩
  else ⟨s, [], none, m⟩

/-- the `handleNewMessage` closure (internal.ts lines 65-105), parameterized
by the router used to route the built reply (breaking the
`handleNewMessage`/`routeMessage` recursion).  With a registered handler:
invoke it; on success route a reply carrying the returned value; on a throw
serialize the error into `message.err`, route the reply, and then execute
`throw reply` — note the source throws the (unassigned) `reply` variable,
i.e. `undefined`, not the caught error.  With no handler: serialize the
no-handler error, route the reply, and do not throw locally.  A throw raised
by the inner `routeMessage` call (unset namespace) propagates out of the
`finally` block and preempts the `throw reply`. -/
def handleNewMessageF (env : Env) (route : State → InternalMessage → RouteResult)
    (s : State) (m : InternalMessage) : RouteResult :=
  match List.lookup m.messageID s.onMessageListeners with
  | some cb =>
      match cb ⟨m.origin, m.messageID, m.data, m.timestamp⟩ with
      | .ok v =>
          let r := route s (mkReply m v)
          ⟨r.state, .handlerInvoked m.messageID :: r.effects, r.thrown, m⟩
      | .threw e =>
          let m2 := { m with err := some (serializeError e) }
          let r := route s (mkReply m2 none)
          ⟨r.state, .handlerInvoked m.messageID :: r.effects,
            (match r.thrown with
              | some t => some t
              | none => some (.dataVal none)), m2⟩
  | none =>
      let m2 := { m with err := some (serializeError (noHandlerError m.messageID)) }
      let r := route s (mkReply m2 none)
      ⟨r.state, r.effects, r.thrown, m2⟩

/-- `routeMessage` (internal.ts lines 24-38) with the inbound dispatch
(`handleInboundMessage`, lines 40-111) inlined at its single use site, and a
fuel parameter bounding the `handleNewMessage` → `routeMessage` recursion
(depth 2 suffices for every real execution, since a routed reply never
dispatches as a new `message`): drop the envelope if the local identity is
already a hop; otherwise append the local identity to `hops`; if
`destination` is null, dispatch locally by `messageType`; else if
`destination.context` is truthy, forward through the window. -/
def routeMessageF (env : Env) : Nat → State → InternalMessage → RouteResult
  | 0, s, m => ⟨s, [], none, m⟩
  | fuel + 1, s, m =>
      if env.rid ∈ m.hops then ⟨s, [], none, m⟩
      else
        let m2 := { m with hops := m.hops ++ [env.rid] }
        match m2.destination with
        | none =>
            match m2.messageType with
            | .reply => handleReplyF env s m2
            | .message => handleNewMessageF env (routeMessageF env fuel) s m2
        | some d =>
            if truthyCtx d.context then routeMessageThroughWindowF s m2
            else ⟨s, [], none, m2⟩

/-- the exported `routeMessage` entry point; fuel 2 covers the only possible
recursion (request dispatch routing its reply). -/
def routeMessage (env : Env) (s : State) (m : InternalMessage) : RouteResult :=
  routeMessageF env 2 s m

/-- `handleNewMessage` as invoked from the dispatch switch: its inner
`routeMessage` call routes a `reply` envelope, which never recurses further,
so fuel 1 is exact. -/
def handleNewMessage (env : Env) (s : State) (m : InternalMessage) : RouteResult :=
  handleNewMessageF env (routeMessageF env 1) s m

/-! ### Helper characterizations of `handleReply` -/

theorem handleReplyF_present_some (env : Env) (s : State) (m : InternalMessage)
    (r : SerializedError) (hmem : m.transactionId ∈ s.openTransactions)
    (herr : m.err = some r) :
    handleReplyF env s m =
      ⟨⟨s.openTransactions.erase m.transactionId, s.onMessageListeners, s.nsp⟩,
        [.rejectTx m.transactionId (deserializeError env.errCtorExists r)], none, m⟩ := by
  unfold handleReplyF
  rw [if_pos hmem, herr]

theorem handleReplyF_present_none (env : Env) (s : State) (m : InternalMessage)
    (hmem : m.transactionId ∈ s.openTransactions) (herr : m.err = none) :
    handleReplyF env s m =
      ⟨⟨s.openTransactions.erase m.transactionId, s.onMessageListeners, s.nsp⟩,
        [.resolveTx m.transactionId m.data], none, m⟩ := by
  unfold handleReplyF
  rw [if_pos hmem, herr]

theorem handleReplyF_absent (env : Env) (s : State) (m : InternalMessage)
    (hmem : m.transactionId ∉ s.openTransactions) :
    handleReplyF env s m = ⟨s, [], none, m⟩ := by
  unfold handleReplyF
  rw [if_neg hmem]

/-! ### Claim theorems on reply dispatch -/

/-- C2: a reply whose transaction is pending rejects the transaction with the
rehydrated error when `err` is set, resolves it with `data` otherwise, and in
either case removes the entry from the Transaction Table exactly once, so a
second reply with the same `transactionId` finds no entry and is a no-op. -/
theorem handleReply_pending (env : Env) (s : State) (m : InternalMessage)
    (hmem : m.transactionId ∈ s.openTransactions)
    (hnd : s.openTransactions.Nodup) :
    (∀ r, m.err = some r →
      (handleReplyF env s m).effects =
        [.rejectTx m.transactionId (deserializeError env.errCtorExists r)])
    ∧ (m.err = none →
        (handleReplyF env s m).effects = [.resolveTx m.transactionId m.data])
    ∧ m.transactionId ∉ (handleReplyF env s m).state.openTransactions
    ∧ handleReplyF env (handleReplyF env s m).state m
        = ⟨(handleReplyF env s m).state, [], none, m⟩ := by
  have hne : m.transactionId ∉ s.openTransactions.erase m.transactionId :=
    hnd.not_mem_erase
  have hafter : (handleReplyF env s m).state =
      ⟨s.openTransactions.erase m.transactionId, s.onMessageListeners, s.nsp⟩ := by
    cases herr : m.err with
    | some r => rw [handleReplyF_present_some env s m r hmem herr]
    | none => rw [handleReplyF_present_none env s m hmem herr]
  refine ⟨?_, ?_, ?_, ?_⟩
  · intro r herr
    rw [handleReplyF_present_some env s m r hmem herr]
  · intro herr
    rw [handleReplyF_present_none env s m hmem herr]
  · rw [hafter]
    exact hne
  · rw [hafter]
    exact handleReplyF_absent env _ m hne

/-- a concrete environment for the witnesses. -/
def egEnv : Env := ⟨"rid0", fun _ => false⟩

/-- a concrete state with two pending transactions. -/
def egStateTx : State := ⟨["t1", "t2"], [], some ("ns")⟩

/-- a concrete failed reply envelope for transaction `t1`. -/
def egReplyErr : InternalMessage :=
  ⟨"t1", "m1", .reply, ⟨some ("window"), none⟩, none, none,
    some ⟨"RangeError", "oops", []⟩, ["other"], 0⟩

theorem handleReply_pending_witness :
    ("t1" ∈ egStateTx.openTransactions ∧ egStateTx.openTransactions.Nodup)
    ∧ (handleReplyF egEnv egStateTx egReplyErr).effects =
        [.rejectTx ("t1") (deserializeError egEnv.errCtorExists ⟨"RangeError", "oops", []⟩)]
    ∧ "t1" ∉ (handleReplyF egEnv egStateTx egReplyErr).state.openTransactions :=
  ⟨⟨by decide, by decide⟩,
    (handleReply_pending egEnv egStateTx egReplyErr (by decide) (by decide)).1
      ⟨"RangeError", "oops", []⟩ rfl,
    (handleReply_pending egEnv egStateTx egReplyErr (by decide) (by decide)).2.2.1⟩

/-- C7: a reply whose `transactionId` is not in the Transaction Table is a
silent no-op: no throw, no effect, tables unchanged. -/
theorem handleReply_unknownTransaction_noop (env : Env) (s : State)
    (m : InternalMessage) (hmem : m.transactionId ∉ s.openTransactions) :
    handleReplyF env s m = ⟨s, [], none, m⟩ :=
  handleReplyF_absent env s m hmem

theorem handleReply_unknownTransaction_noop_witness :
    "t9" ∉ egStateTx.openTransactions
    ∧ handleReplyF egEnv egStateTx { egReplyErr with transactionId := "t9" }
        = ⟨egStateTx, [], none, { egReplyErr with transactionId := "t9" }⟩ :=
  ⟨by decide,
    handleReply_unknownTransaction_noop egEnv egStateTx
      { egReplyErr with transactionId := "t9" } (by decide)⟩

/-! ### Claim theorems on routing -/

/-- C3: routing an envelope whose hops already contain the local runtime
identity returns immediately with no effect: tables unchanged, no effects
performed, nothing thrown, and the envelope (in particular its hops list)
untouched. -/
theorem routeMessage_duplicateHop_noop (env : Env) (s : State)
    (m : InternalMessage) (h : env.rid ∈ m.hops) :
    routeMessage env s m = ⟨s, [], none, m⟩ := by
  unfold routeMessage routeMessageF
  rw [if_pos h]

/-- a concrete state with no listeners or transactions. -/
def egStateEmpty : State := ⟨[], [], some ("ns")⟩

/-- a concrete envelope that has already visited runtime `rid0`. -/
def egLoopMsg : InternalMessage :=
  ⟨"t1", "m1", .message, ⟨some ("window"), none⟩, some ⟨some ("background"), none⟩,
    none, none, ["rid0"], 0⟩

theorem routeMessage_duplicateHop_noop_witness :
    egEnv.rid ∈ egLoopMsg.hops
    ∧ routeMessage egEnv egStateEmpty egLoopMsg = ⟨egStateEmpty, [], none, egLoopMsg⟩ :=
  ⟨by decide, routeMessage_duplicateHop_noop egEnv egStateEmpty egLoopMsg (by decide)⟩

/-! ### Claim theorems on new-message dispatch -/

/-- C5: an inbound `message` with no registered handler for its `messageID`
routes a `reply` whose `err` is the serialized no-handler error (whose
message names the missing `messageID` and the local context), and throws
nothing locally in the receiving context. -/
theorem noHandler_reply_no_localThrow (env : Env) (s : State) (m : InternalMessage)
    (hno : List.lookup m.messageID s.onMessageListeners = none)
    (hns : ensureNamespaceSet s.nsp = none)
    (hoc : truthyCtx m.origin.context = true) :
    handleNewMessage env s m =
      ⟨s,
        [.forwardToWindow
          { mkReply { m with err := some (serializeError (noHandlerError m.messageID)) } none
            with hops := [env.rid] }],
        none,
        { m with err := some (serializeError (noHandlerError m.messageID)) }⟩
    ∧ serializeError (noHandlerError m.messageID)
        = ⟨"Error", noHandlerMessage m.messageID, []⟩ := by
  constructor
  · unfold handleNewMessage handleNewMessageF
    rw [hno]
    simp only [routeMessageF, mkReply, routeMessageThroughWindowF, hns,
      List.not_mem_nil, if_false, List.nil_append, hoc, if_true]
  · rfl

/-- a concrete request for a message id with no registered handler. -/
def egReqNoHandler : InternalMessage :=
  ⟨"t2", "mx", .message, ⟨some ("content-script"), some 3⟩, none,
    some (.str ("hi")), none, [], 5⟩

theorem noHandler_reply_no_localThrow_witness :
    (List.lookup ("mx") egStateEmpty.onMessageListeners = none
      ∧ ensureNamespaceSet egStateEmpty.nsp = none
      ∧ truthyCtx egReqNoHandler.origin.context = true)
    ∧ (handleNewMessage egEnv egStateEmpty egReqNoHandler).thrown = none :=
  ⟨⟨rfl, rfl, rfl⟩, by
    rw [(noHandler_reply_no_localThrow egEnv egStateEmpty egReqNoHandler rfl rfl rfl).1]⟩

/-- C6: when the registered handler returns successfully, the routed reply
keeps the request's `transactionId`, has `messageType` `reply`, carries the
handler's return value as `data`, has `origin` set to the local context's
identity and `destination` set to the request's `origin`, and is built with
an empty hops list (so it is forwarded carrying only the local identity,
not the request's hop trail); nothing is thrown locally. -/
theorem handlerSuccess_reply_shape (env : Env) (s : State) (m : InternalMessage)
    (cb : OnMessageCallback) (v : Option JValue)
    (hcb : List.lookup m.messageID s.onMessageListeners = some cb)
    (hres : cb ⟨m.origin, m.messageID, m.data, m.timestamp⟩ = .ok v)
    (hns : ensureNamespaceSet s.nsp = none)
    (hoc : truthyCtx m.origin.context = true) :
    (mkReply m v).hops = []
    ∧ handleNewMessage env s m =
        ⟨s,
          [.handlerInvoked m.messageID,
            .forwardToWindow
              ⟨m.transactionId, m.messageID, .reply, ⟨some context, none⟩,
                some m.origin, v, m.err, [env.rid], m.timestamp⟩],
          none, m⟩ := by
  constructor
  · rfl
  · simp only [handleNewMessage, handleNewMessageF, hcb, hres]
    simp only [routeMessageF, mkReply, routeMessageThroughWindowF, hns,
      List.not_mem_nil, if_false, List.nil_append, hoc, if_true]

/-- a concrete handler returning the payload `2`. -/
def egHandlerOk : OnMessageCallback := fun _ => .ok (some (.num 2))

/-- a concrete state registering `egHandlerOk` under id `m1`. -/
def egStateOk : State := ⟨[], [("m1", egHandlerOk)], some ("ns")⟩

/-- a concrete request envelope for id `m1`. -/
def egRequest : InternalMessage :=
  ⟨"t1", "m1", .message, ⟨some ("content-script"), none⟩, none,
    some (.num 1), none, [], 0⟩

theorem handlerSuccess_reply_shape_witness :
    (List.lookup ("m1") egStateOk.onMessageListeners = some egHandlerOk
      ∧ ensureNamespaceSet egStateOk.nsp = none
      ∧ truthyCtx egRequest.origin.context = true)
    ∧ (handleNewMessage egEnv egStateOk egRequest).effects =
        [.handlerInvoked ("m1"),
          .forwardToWindow
            ⟨"t1", "m1", .reply, ⟨some context, none⟩,
              some ⟨some ("content-script"), none⟩, some (.num 2), none, ["rid0"], 0⟩] :=
  ⟨⟨rfl, rfl, rfl⟩, by
    rw [(handlerSuccess_reply_shape egEnv egStateOk egRequest egHandlerOk
      (some (.num 2)) rfl rfl rfl rfl).2]
    rfl⟩

/-! ### Claim theorem on the handler-throw path (the `throw reply` slip) -/

/-- a concrete handler that throws a `TypeError`. -/
def egHandlerThrow : OnMessageCallback := fun _ => .threw ⟨"TypeError", "boom", []⟩

/-- a concrete state registering the throwing handler under id `m1`. -/
def egStateThrow : State := ⟨[], [("m1", egHandlerThrow)], some ("ns")⟩

/-- C1 (failing input): when the handler for `m1` throws
`TypeError: boom`, the dispatcher does serialize the error into the routed
reply's `err` field, but the value it then re-raises locally is
`undefined` — internal.ts line 103 executes `throw reply`, and `reply` is the
never-assigned handler-return variable — so the local observer does not see a
throw carrying the original error's name and message. -/
theorem handlerThrow_localThrow_isUndefined :
    (handleNewMessage egEnv egStateThrow egRequest).thrown
        = some (.dataVal none)
    ∧ (handleNewMessage egEnv egStateThrow egRequest).effects =
        [.handlerInvoked ("m1"),
          .forwardToWindow
            ⟨"t1", "m1", .reply, ⟨some context, none⟩,
              some ⟨some ("content-script"), none⟩, none,
              some (serializeError ⟨"TypeError", "boom", []⟩), ["rid0"], 0⟩]
    ∧ (handleNewMessage egEnv egStateThrow egRequest).thrown
        ≠ some (.errVal ⟨"TypeError", "boom", []⟩) := by
  refine ⟨rfl, rfl, ?_⟩
  decide

/-! ### Claim theorem on the namespace guard -/

/-- C8: forwarding through the shared relay first runs the namespace guard:
if the namespace is unset or empty the forwarder throws synchronously and
locally and performs no effect (nothing is posted); if the namespace is a
non-empty string, no error is thrown and the envelope is handed to the
relay. -/
theorem forwarding_requires_namespace (s : State) (m : InternalMessage) :
    ((s.nsp = none ∨ s.nsp = some ("")) →
      routeMessageThroughWindowF s m = ⟨s, [], some (.errVal namespaceError), m⟩)
    ∧ (∀ n, s.nsp = some n → n.length ≠ 0 →
        (routeMessageThroughWindowF s m).thrown = none
          ∧ (routeMessageThroughWindowF s m).effects = [.forwardToWindow m]) := by
  constructor
  · rintro (h | h) <;>
      simp [routeMessageThroughWindowF, ensureNamespaceSet, h, namespaceError]
  · intro n hn hne
    constructor <;>
      simp [routeMessageThroughWindowF, ensureNamespaceSet, hn, hne]

theorem forwarding_requires_namespace_witness :
    routeMessageThroughWindowF ⟨[], [], none⟩ egRequest
        = ⟨⟨[], [], none⟩, [], some (.errVal namespaceError), egRequest⟩
    ∧ (routeMessageThroughWindowF egStateEmpty egRequest).thrown = none
    ∧ (routeMessageThroughWindowF egStateEmpty egRequest).effects
        = [.forwardToWindow egRequest] :=
  ⟨(forwarding_requires_namespace ⟨[], [], none⟩ egRequest).1 (Or.inl rfl),
    ((forwarding_requires_namespace egStateEmpty egRequest).2 ("ns") rfl (by decide)).1,
    ((forwarding_requires_namespace egStateEmpty egRequest).2 ("ns") rfl (by decide)).2⟩

/-! ### Handshake/retry forwarder timing model

`routeMessageThroughWindow` (internal.ts lines 128-150) opens a fresh
`MessageChannel` per attempt, posts a probe, and sets a 300ms retry timer.
If the timer fires, the attempt's response callback is detached
(`channel.port1.onmessage = null`) and a fresh attempt begins; if an
acknowledgment arrives on a still-attached channel, the timer is cleared
(`clearTimeout(retry)`) and the full envelope is posted once.  An execution
is a sequence of timer/acknowledgment events processed by `fwdStep`. -/

/-- an asynchronous event observed by the forwarder for one envelope:
attempt `k`'s retry timer fires, or an acknowledgment arrives on attempt
`k`'s private channel. -/
inductive FwdEvent
  | timeoutFires (k : Nat)
  | ackArrives (k : Nat)
deriving DecidableEq

/-- forwarder state for one envelope: the index of the current attempt, the
attempts whose channel callback was detached, whether the current attempt's
retry timer is still pending, and the number of full-envelope broadcasts.
`acked` is a ghost history variable recording which attempts' probes have
been acknowledged; it does not influence behaviour. -/
structure FwdState where
  attempt : Nat
  detached : List Nat
  timerPending : Bool
  sends : Nat
  acked : List Nat
deriving DecidableEq

/-- initial forwarder state: attempt 0 has posted its probe and armed its
timer. -/
def fwdInit : FwdState := ⟨0, [], true, 0, []⟩

/-- one event of the forwarder protocol.  A firing timer (only the current
attempt's, and only if not cleared) detaches the attempt's channel and starts
a fresh attempt with a new channel and timer (lines 132-135).  An
acknowledgment on a channel whose callback is still attached clears the
pending timer of the current attempt and broadcasts the full envelope
(lines 136-144); an acknowledgment on a detached channel invokes a null
callback and has no effect. -/
def fwdStep (s : FwdState) : FwdEvent → FwdState
  | .timeoutFires k =>
      if k = s.attempt ∧ s.timerPending = true then
        ⟨k + 1, k :: s.detached, true, s.sends, s.acked⟩
      else s
  | .ackArrives k =>
      if k ≤ s.attempt ∧ k ∉ s.detached then
        ⟨s.attempt, s.detached, if k = s.attempt then false else s.timerPending,
          s.sends + 1, k :: s.acked⟩
      else s

/-- run of the forwarder over a schedule of events. -/
def fwdRun (es : List FwdEvent) : FwdState := es.foldl fwdStep fwdInit

/-- attempt indices acknowledged somewhere in a schedule; the peer protocol
(`handleWindowOnMessage`, lines 116-119) answers each probe at most once, so
well-formed schedules have no duplicate here. -/
def ackIndices (es : List FwdEvent) : List Nat :=
  es.filterMap fun e =>
    match e with
    | .ackArrives k => some k
    | _ => none

theorem mem_ackIndices_of_mem {k : Nat} {es : List FwdEvent}
    (h : FwdEvent.ackArrives k ∈ es) : k ∈ ackIndices es :=
  List.mem_filterMap.mpr ⟨FwdEvent.ackArrives k, h, rfl⟩

/-- invariant of reachable forwarder states: exactly the attempts before the
current one are detached, an armed timer means nothing has been acknowledged
yet, every acknowledged attempt is the (frozen) current one, and the number
of broadcasts equals the number of effective acknowledgments and is at most
one. -/
structure FwdInv (s : FwdState) : Prop where
  detached_of_lt : ∀ j, j < s.attempt → j ∈ s.detached
  lt_of_detached : ∀ j ∈ s.detached, j < s.attempt
  acked_nil_of_timer : s.timerPending = true → s.acked = []
  acked_eq_attempt : ∀ j ∈ s.acked, j = s.attempt
  sends_eq : s.sends = s.acked.length
  sends_le : s.sends ≤ 1

theorem fwdInv_init : FwdInv fwdInit :=
  ⟨fun j h => absurd h (Nat.not_lt_zero j),
    fun j h => absurd h (List.not_mem_nil j),
    fun _ => rfl,
    fun j h => absurd h (List.not_mem_nil j),
    rfl, Nat.zero_le 1⟩

theorem fwdRun_aux : ∀ (es : List FwdEvent) (s : FwdState),
    FwdInv s →
    (∀ j ∈ s.acked, FwdEvent.ackArrives j ∉ es) →
    (ackIndices es).Nodup →
    FwdInv (es.foldl fwdStep s) := by
  intro es
  induction es with
  | nil =>
      intro s h _ _
      simpa using h
  | cons e rest ih =>
      intro s hInv hdisj hnd
      rw [List.foldl_cons]
      cases e with
      | timeoutFires k =>
          have hnd2 : (ackIndices rest).Nodup := by simpa [ackIndices] using hnd
          have hdisj2 : ∀ j ∈ s.acked, FwdEvent.ackArrives j ∉ rest :=
            fun j hj hm => hdisj j hj (List.mem_cons_of_mem _ hm)
          by_cases hg : k = s.attempt ∧ s.timerPending = true
          · have hacked : s.acked = [] := hInv.acked_nil_of_timer hg.2
            have hsends : s.sends = 0 := by rw [hInv.sends_eq, hacked]; rfl
            have hstep : fwdStep s (.timeoutFires k)
                = ⟨k + 1, k :: s.detached, true, s.sends, s.acked⟩ := by
              simp only [fwdStep]
              rw [if_pos hg]
            rw [hstep]
            refine ih _ ?_ ?_ hnd2
            · refine ⟨?_, ?_, ?_, ?_, ?_, ?_⟩
              · intro j hj
                have hj2 : j < k + 1 := hj
                by_cases hjk : j = k
                · exact hjk ▸ List.mem_cons_self _ _
                · have hjlt : j < s.attempt := hg.1 ▸ (show j < k by omega)
                  exact List.mem_cons_of_mem _ (hInv.detached_of_lt j hjlt)
              · intro j hj
                show j < k + 1
                rcases List.mem_cons.mp hj with he | hm
                · omega
                · have h1 := hInv.lt_of_detached j hm
                  have h2 : k = s.attempt := hg.1
                  omega
              · intro _
                exact hacked
              · intro j hj
                rw [hacked] at hj
                cases hj
              · exact hInv.sends_eq
              · exact hInv.sends_le
            · intro j hj hm
              rw [hacked] at hj
              cases hj
          · have hstep : fwdStep s (.timeoutFires k) = s := by
              simp only [fwdStep]
              rw [if_neg hg]
            rw [hstep]
            exact ih s hInv hdisj2 hnd2
      | ackArrives k =>
          have hcons : ackIndices (FwdEvent.ackArrives k :: rest)
              = k :: ackIndices rest := by simp [ackIndices]
          rw [hcons] at hnd
          have hnotr : k ∉ ackIndices rest := (List.nodup_cons.mp hnd).1
          have hnd2 : (ackIndices rest).Nodup := (List.nodup_cons.mp hnd).2
          have hdisj2 : ∀ j ∈ s.acked, FwdEvent.ackArrives j ∉ rest :=
            fun j hj hm => hdisj j hj (List.mem_cons_of_mem _ hm)
          by_cases hg : k ≤ s.attempt ∧ k ∉ s.detached
          · have hk : k = s.attempt := by
              rcases Nat.lt_or_eq_of_le hg.1 with hlt | heq
              · exact absurd (hInv.detached_of_lt k hlt) hg.2
              · exact heq
            have hacked : s.acked = [] := by
              rcases hList : s.acked with _ | ⟨a, tl⟩
              · rfl
              · exfalso
                have hmem : a ∈ s.acked := by
                  rw [hList]
                  exact List.mem_cons_self a tl
                have ha : a = s.attempt := hInv.acked_eq_attempt a hmem
                apply hdisj a hmem
                rw [ha, ← hk]
                exact List.mem_cons_self _ _
            have hsends : s.sends = 0 := by rw [hInv.sends_eq, hacked]; rfl
            have hstep : fwdStep s (.ackArrives k)
                = ⟨s.attempt, s.detached, false, s.sends + 1, k :: s.acked⟩ := by
              simp only [fwdStep]
              rw [if_pos hg, if_pos hk]
            rw [hstep]
            refine ih _ ?_ ?_ hnd2
            · refine ⟨hInv.detached_of_lt, hInv.lt_of_detached, ?_, ?_, ?_, ?_⟩
              · intro h
                exact Bool.noConfusion h
              · intro j hj
                rcases List.mem_cons.mp hj with he | hm
                · rw [he]
                  exact hk
                · rw [hacked] at hm
                  cases hm
              · show s.sends + 1 = (k :: s.acked).length
                simp [hacked, hsends]
              · show s.sends + 1 ≤ 1
                omega
            · intro j hj
              rcases List.mem_cons.mp hj with he | hm
              · rw [he]
                intro hmm
                exact hnotr (mem_ackIndices_of_mem hmm)
              · rw [hacked] at hm
                cases hm
          · have hstep : fwdStep s (.ackArrives k) = s := by
              simp only [fwdStep]
              rw [if_neg hg]
            rw [hstep]
            exact ih s hInv hdisj2 hnd2

theorem fwdStep_sends_le (s : FwdState) (e : FwdEvent) :
    s.sends ≤ (fwdStep s e).sends := by
  cases e with
  | timeoutFires k =>
      by_cases hg : k = s.attempt ∧ s.timerPending = true <;>
        simp [fwdStep, hg]
  | ackArrives k =>
      by_cases hg : k ≤ s.attempt ∧ k ∉ s.detached <;>
        simp [fwdStep, hg]

theorem fwdRun_sends_mono : ∀ (es : List FwdEvent) (s : FwdState),
    s.sends ≤ (es.foldl fwdStep s).sends := by
  intro es
  induction es with
  | nil =>
      intro s
      simp
  | cons e rest ih =>
      intro s
      rw [List.foldl_cons]
      exact le_trans (fwdStep_sends_le s e) (ih (fwdStep s e))

/-- C9: the forwarder's timeout discards the attempt's channel (detaches its
callback) and starts a fresh attempt; and on any schedule in which each probe
is acknowledged at most once and some attempt `k` receives its
acknowledgment while its channel is still attached and current (i.e. before
its own timeout), the full envelope is broadcast exactly once — even when
acknowledgments of earlier, timed-out attempts arrive late. -/
theorem forwarder_exactly_once (es l r : List FwdEvent) (k : Nat)
    (hnd : (ackIndices es).Nodup)
    (hsplit : es = l ++ FwdEvent.ackArrives k :: r)
    (hact : (fwdRun l).attempt = k)
    (hdet : k ∉ (fwdRun l).detached) :
    (fwdRun es).sends = 1
    ∧ (∀ s : FwdState, s.timerPending = true →
        fwdStep s (.timeoutFires s.attempt)
          = ⟨s.attempt + 1, s.attempt :: s.detached, true, s.sends, s.acked⟩) := by
  constructor
  · have hle : (fwdRun es).sends ≤ 1 :=
      (fwdRun_aux es fwdInit fwdInv_init
        (fun j hj => absurd hj (List.not_mem_nil j)) hnd).sends_le
    have hguard : k ≤ (fwdRun l).attempt ∧ k ∉ (fwdRun l).detached :=
      ⟨le_of_eq hact.symm, hdet⟩
    have hstep : (fwdStep (fwdRun l) (.ackArrives k)).sends = (fwdRun l).sends + 1 := by
      simp only [fwdStep]
      rw [if_pos hguard]
    have hge : 1 ≤ (fwdRun es).sends := by
      rw [hsplit]
      show 1 ≤ ((l ++ FwdEvent.ackArrives k :: r).foldl fwdStep fwdInit).sends
      rw [List.foldl_append, List.foldl_cons]
      calc 1 ≤ (fwdRun l).sends + 1 := by omega
        _ = (fwdStep (fwdRun l) (.ackArrives k)).sends := hstep.symm
        _ ≤ _ := fwdRun_sends_mono r _
    omega
  · intro s hs
    simp [fwdStep, hs]

/-- a concrete schedule: attempt 0 times out, its acknowledgment arrives
late (no effect on the detached channel), attempt 1 is acknowledged in
time. -/
def egFwdRun : List FwdEvent := [.timeoutFires 0, .ackArrives 0, .ackArrives 1]

/-- the prefix of `egFwdRun` before attempt 1's acknowledgment. -/
def egFwdProbe : List FwdEvent := [.timeoutFires 0, .ackArrives 0]

theorem forwarder_exactly_once_witness :
    ((ackIndices egFwdRun).Nodup
      ∧ (fwdRun egFwdProbe).attempt = 1
      ∧ 1 ∉ (fwdRun egFwdProbe).detached)
    ∧ (fwdRun egFwdRun).sends = 1 :=
  ⟨⟨by decide, by decide, by decide⟩,
    (forwarder_exactly_once egFwdRun egFwdProbe [] 1 (by decide) rfl
      (by decide) (by decide)).1⟩

/-! ### Endpoint parsing (src/utils.ts) -/

/-- context names of the `ENDPOINT_RE` alternatives other than `background`
(whose alternative carries its own end anchor, `(?:background$)`, and so
admits no `@instance` suffix). -/
def suffixableContexts : List String :=
  ["devtools", "popup", "options", "content-script", "window"]

/-- a JavaScript number as produced by unary `+` in `parseEndpoint`: `NaN`
(from `+undefined`) or an integer (from a digit string). -/
inductive JsNumber
  | nan
  | int (n : Nat)
deriving DecidableEq

/-- the record returned by `parseEndpoint` (`types.ts` `Endpoint` as actually
produced by utils.ts): `context` is `undefined` (`none`) when the regex does
not match, and `tabId` is always a number, possibly `NaN`. -/
structure ParsedEndpoint where
  context : Option String
  tabId : JsNumber
deriving DecidableEq

/-- numeric value of a digit string under JavaScript unary `+`. -/
def decimalValue (s : String) : Nat :=
  s.toList.foldl (fun a c => a * 10 + (c.toNat - 48)) 0

/-- match of `ENDPOINT_RE` (utils.ts line 3),
`^((?:background$)|devtools|popup|options|content-script|window)(?:@(\d+))?$`,
returning the two capture groups on success: the `background` alternative is
anchored and admits no suffix; every other context name may be followed by
`@` and one or more digits. -/
def matchEndpoint (s : String) : Option (String × Option String) :=
  if s = "background" then some ("background", none)
  else
    match suffixableContexts.find?
        (fun c => s == c || (c ++ "@").toList.isPrefixOf s.toList) with
    | none => none
    | some c =>
        if s = c then some (c, none)
        else
          let ds := s.toList.drop (c.toList.length + 1)
          if ds.length != 0 && ds.all Char.isDigit then
            some (c, some (String.mk ds))
          else none

/-- `parseEndpoint` (utils.ts lines 5-12): destructure the match result (or
`[]` on no match) into the two groups and return
`{context, tabId: +tabId}`; a missing `tabId` group yields
`+undefined = NaN`. -/
def parseEndpoint (s : String) : ParsedEndpoint :=
  match matchEndpoint s with
  | none => ⟨none, .nan⟩
  | some (c, none) => ⟨some c, .nan⟩
  | some (c, some ds) => ⟨some c, .int (decimalValue ds)⟩

/-- C10: `parseEndpoint` maps every bare context name (no `@instance`
suffix) to a record whose `tabId` field is `NaN` (present, not absent), and
maps every string the endpoint grammar rejects to
`{context: undefined, tabId: NaN}`, without throwing (it is total). -/
theorem parseEndpoint_bare_nan_nonmatch_undefined :
    (∀ s ∈ ("background" :: suffixableContexts), parseEndpoint s = ⟨some s, .nan⟩)
    ∧ ∀ s, matchEndpoint s = none → parseEndpoint s = ⟨none, .nan⟩ := by
  constructor
  · intro s hs
    simp [suffixableContexts] at hs
    rcases hs with rfl | rfl | rfl | rfl | rfl | rfl <;> decide
  · intro s h
    unfold parseEndpoint
    rw [h]

theorem parseEndpoint_witness :
    ("devtools" ∈ ("background" :: suffixableContexts)
      ∧ matchEndpoint ("not-a-context") = none)
    ∧ parseEndpoint ("devtools") = ⟨some ("devtools"), .nan⟩
    ∧ parseEndpoint ("not-a-context") = ⟨none, .nan⟩ :=
  ⟨⟨by decide, by decide⟩,
    (parseEndpoint_bare_nan_nonmatch_undefined).1 ("devtools") (by decide),
    (parseEndpoint_bare_nan_nonmatch_undefined).2 ("not-a-context") (by decide)⟩

end WebextBridge
